import Mathlib

/-!
# Verification of the kustomize SopsSecretGenerator source-resolution pipeline

Shallow embedding of `main.go`.  Go byte strings are `List Nat` (each byte
`< 256`); Go maps (`kvMap`) are lookup functions `GoStr → Option GoStr`,
reflecting that a Go map carries values per key and no intrinsic order.
External collaborators (filesystem reads, the sops decryption oracle, YAML
and JSON (de)serialization) are an explicit environment of capability
functions, as the specification directs.
-/

/-- Go byte string: a list of byte values. -/
abbrev GoStr := List Nat

/-- Semantics of a Go `map[string]string`: lookup per key. -/
abbrev kvMapF := GoStr → Option GoStr

/-- Go map assignment `m[k] = v`. -/
def update (m : kvMapF) (k v : GoStr) : kvMapF :=
  fun x => if x = k then some v else m x

/-- Go `make(kvMap)`: the empty map. -/
def emptyMap : kvMapF := fun _ => none

/-- Bytes of an ASCII string literal (used for the program's literal strings,
which are all ASCII). -/
def ascii (s : String) : GoStr := s.data.map (fun c => c.toNat)

/-- Digit pass for `natToDec`; the fuel argument only bounds the recursion
depth and is never exhausted when it starts at the number itself. -/
def natToDecAux : Nat → Nat → GoStr
  | 0, n => [48 + n % 10]
  | fuel + 1, n => if n < 10 then [48 + n] else natToDecAux fuel (n / 10) ++ [48 + n % 10]

/-- Decimal rendering of a natural, as `fmt` prints an `int` (used for the
`line %d` error wrapping). -/
def natToDec (n : Nat) : GoStr := natToDecAux n n

/-- `errors.Wrapf(err, msg)`: the wrapped message is `msg ++ ": " ++ err`. -/
def wrapErr (msg e : GoStr) : GoStr := msg ++ ascii (": ") ++ e

/-- `pat` occurs as a contiguous segment of `s` (used to state that error
messages contain a given text). -/
def isSubSeg (pat : GoStr) (s : GoStr) : Bool :=
  pat.isPrefixOf s ||
    match s with
    | [] => false
    | _ :: rest => isSubSeg pat rest

/-! ## Standard base64 (`encoding/base64` StdEncoding: standard alphabet,
with padding), modelled over byte lists. -/

/-- The standard base64 alphabet, as ASCII byte values. -/
def b64Table : List Nat :=
  [65, 66, 67, 68, 69, 70, 71, 72, 73, 74, 75, 76, 77, 78, 79, 80,
   81, 82, 83, 84, 85, 86, 87, 88, 89, 90,
   97, 98, 99, 100, 101, 102, 103, 104, 105, 106, 107, 108, 109, 110,
   111, 112, 113, 114, 115, 116, 117, 118, 119, 120, 121, 122,
   48, 49, 50, 51, 52, 53, 54, 55, 56, 57, 43, 47]

/-- Alphabet character for a 6-bit group. -/
def b64Char (i : Nat) : Nat := b64Table.getD i 65

/-- Position of a byte in the alphabet, scanning from index `i`. -/
def b64IndexAux : List Nat → Nat → Nat → Option Nat
  | [], _, _ => none
  | x :: xs, c, i => if x = c then some i else b64IndexAux xs c (i + 1)

/-- Position of a byte in the standard base64 alphabet. -/
def b64Index (c : Nat) : Option Nat := b64IndexAux b64Table c 0

/-- `base64.StdEncoding.EncodeToString`: groups of three bytes become four
alphabet characters; a final group of one or two bytes is padded with `=`
(byte 61). -/
def b64Encode : GoStr → GoStr
  | a :: b :: c :: rest =>
      b64Char (a / 4) :: b64Char (a % 4 * 16 + b / 16) ::
      b64Char (b % 16 * 4 + c / 64) :: b64Char (c % 64) :: b64Encode rest
  | [a, b] => [b64Char (a / 4), b64Char (a % 4 * 16 + b / 16), b64Char (b % 16 * 4), 61]
  | [a] => [b64Char (a / 4), b64Char (a % 4 * 16), 61, 61]
  | [] => []

/-- Standard base64 decoding of a padded encoding: the inverse direction of
the round-trip property claimed by the specification. -/
def b64Decode : GoStr → Option GoStr
  | [] => some []
  | c1 :: c2 :: c3 :: c4 :: rest =>
      match b64Index c1, b64Index c2 with
      | some i1, some i2 =>
          if c3 = 61 ∧ c4 = 61 ∧ rest = [] then
            some [i1 * 4 + i2 / 16]
          else
            match b64Index c3 with
            | some i3 =>
                if c4 = 61 ∧ rest = [] then
                  some [i1 * 4 + i2 / 16, i2 % 16 * 16 + i3 / 4]
                else
                  match b64Index c4, b64Decode rest with
                  | some i4, some ds =>
                      some ((i1 * 4 + i2 / 16) :: (i2 % 16 * 16 + i3 / 4) ::
                            (i3 % 4 * 64 + i4) :: ds)
                  | _, _ => none
            | none => none
      | _, _ => none
  | _ => none

lemma b64Index_b64Char : ∀ i < 64, b64Index (b64Char i) = some i := by decide

lemma b64Char_ne_pad : ∀ i < 64, b64Char i ≠ 61 := by decide

/-- Every encoded byte of a valid byte list round-trips: decoding the
standard base64 encoding recovers the input exactly. -/
theorem b64_roundtrip (l : GoStr) (h : ∀ b ∈ l, b < 256) :
    b64Decode (b64Encode l) = some l := by
  induction l using b64Encode.induct with
  | case1 a b c rest ih =>
      have ha : a < 256 := h a (by simp)
      have hb : b < 256 := h b (by simp)
      have hc : c < 256 := h c (by simp)
      have ih' := ih (fun x hx => h x (by simp [hx]))
      have h1 : a / 4 < 64 := by omega
      have h2 : a % 4 * 16 + b / 16 < 64 := by omega
      have h3 : b % 16 * 4 + c / 64 < 64 := by omega
      have h4 : c % 64 < 64 := by omega
      simp only [b64Encode, b64Decode, b64Index_b64Char _ h1, b64Index_b64Char _ h2,
        b64Index_b64Char _ h3, b64Index_b64Char _ h4, ih']
      have hne3 := b64Char_ne_pad _ h3
      have hne4 := b64Char_ne_pad _ h4
      simp only [hne3, false_and, if_false, hne4, if_false]
      have e1 : a / 4 * 4 + (a % 4 * 16 + b / 16) / 16 = a := by omega
      have e2 : (a % 4 * 16 + b / 16) % 16 * 16 + (b % 16 * 4 + c / 64) / 4 = b := by omega
      have e3 : (b % 16 * 4 + c / 64) % 4 * 64 + c % 64 = c := by omega
      simp [e1, e2, e3]
  | case2 a b =>
      have ha : a < 256 := h a (by simp)
      have hb : b < 256 := h b (by simp)
      have h1 : a / 4 < 64 := by omega
      have h2 : a % 4 * 16 + b / 16 < 64 := by omega
      have h3 : b % 16 * 4 < 64 := by omega
      simp only [b64Encode, b64Decode, b64Index_b64Char _ h1, b64Index_b64Char _ h2,
        b64Index_b64Char _ h3]
      have hne3 := b64Char_ne_pad _ h3
      simp only [hne3, false_and, if_false]
      simp
      omega
  | case3 a =>
      have ha : a < 256 := h a (by simp)
      have h1 : a / 4 < 64 := by omega
      have h2 : a % 4 * 16 < 64 := by omega
      simp only [b64Encode, b64Decode, b64Index_b64Char _ h1, b64Index_b64Char _ h2]
      simp
      omega
  | case4 => rfl

example : b64Encode (ascii ("bar")) = ascii ("YmFy") := by decide
example : b64Encode [1, 2] = ascii ("AQI=") := by decide
example : b64Encode [] = [] := rfl

/-! ## UTF-8 and text machinery (`unicode/utf8`, `unicode.IsSpace`,
`bytes.TrimLeftFunc`, `utfbom`, `bufio.ScanLines`). -/

/-- `utf8.Valid`: strict UTF-8 validity of a byte sequence, per the Go
`unicode/utf8` acceptance ranges (rejecting overlong forms, surrogates and
code points above U+10FFFF). -/
def utf8Valid : GoStr → Bool
  | [] => true
  | b :: rest =>
      if b < 128 then utf8Valid rest
      else if 194 ≤ b ∧ b ≤ 223 then
        match rest with
        | b2 :: rest2 => if 128 ≤ b2 ∧ b2 ≤ 191 then utf8Valid rest2 else false
        | [] => false
      else if 224 ≤ b ∧ b ≤ 239 then
        match rest with
        | b2 :: b3 :: rest3 =>
            if (if b = 224 then 160 else 128) ≤ b2 ∧
               b2 ≤ (if b = 237 then 159 else 191) ∧
               128 ≤ b3 ∧ b3 ≤ 191
            then utf8Valid rest3 else false
        | _ => false
      else if 240 ≤ b ∧ b ≤ 244 then
        match rest with
        | b2 :: b3 :: b4 :: rest4 =>
            if (if b = 240 then 144 else 128) ≤ b2 ∧
               b2 ≤ (if b = 244 then 143 else 191) ∧
               128 ≤ b3 ∧ b3 ≤ 191 ∧ 128 ≤ b4 ∧ b4 ≤ 191
            then utf8Valid rest4 else false
        | _ => false
      else false

/-- `utf8.DecodeRune`: first rune of a byte sequence and the number of bytes
it occupies; any invalid or truncated encoding yields `(0xFFFD, 1)`, the
empty input `(0xFFFD, 0)`. -/
def decodeRune : GoStr → Nat × Nat
  | [] => (65533, 0)
  | b :: rest =>
      if b < 128 then (b, 1)
      else if 194 ≤ b ∧ b ≤ 223 then
        match rest with
        | b2 :: _ =>
            if 128 ≤ b2 ∧ b2 ≤ 191 then ((b - 192) * 64 + (b2 - 128), 2)
            else (65533, 1)
        | [] => (65533, 1)
      else if 224 ≤ b ∧ b ≤ 239 then
        match rest with
        | b2 :: b3 :: _ =>
            if (if b = 224 then 160 else 128) ≤ b2 ∧
               b2 ≤ (if b = 237 then 159 else 191) ∧
               128 ≤ b3 ∧ b3 ≤ 191
            then ((b - 224) * 4096 + (b2 - 128) * 64 + (b3 - 128), 3)
            else (65533, 1)
        | _ => (65533, 1)
      else if 240 ≤ b ∧ b ≤ 244 then
        match rest with
        | b2 :: b3 :: b4 :: _ =>
            if (if b = 240 then 144 else 128) ≤ b2 ∧
               b2 ≤ (if b = 244 then 143 else 191) ∧
               128 ≤ b3 ∧ b3 ≤ 191 ∧ 128 ≤ b4 ∧ b4 ≤ 191
            then ((b - 240) * 262144 + (b2 - 128) * 4096 + (b3 - 128) * 64 + (b4 - 128), 4)
            else (65533, 1)
        | _ => (65533, 1)
      else (65533, 1)

/-- `unicode.IsSpace` on a rune: the Unicode White_Space code points. -/
def isSpace (r : Nat) : Bool :=
  r = 9 || r = 10 || r = 11 || r = 12 || r = 13 || r = 32 || r = 133 || r = 160 ||
  r = 5760 || (8192 ≤ r && r ≤ 8202) || r = 8232 || r = 8233 || r = 8239 ||
  r = 8287 || r = 12288

/-- Trimming pass; the fuel argument only bounds the recursion depth and is
never exhausted when it starts at the list's length, since each decoded rune
occupies at least one byte. -/
def trimLeftAux : Nat → GoStr → GoStr
  | _, [] => []
  | 0, l => l
  | fuel + 1, b :: rest =>
      if isSpace (decodeRune (b :: rest)).1
      then trimLeftAux fuel ((b :: rest).drop (decodeRune (b :: rest)).2)
      else b :: rest

/-- `bytes.TrimLeftFunc(line, unicode.IsSpace)`: drop leading runes for which
`unicode.IsSpace` holds; an invalid rune (`0xFFFD` of width 1) is not a space
and stops the trim. -/
def trimLeftSpace (l : GoStr) : GoStr := trimLeftAux l.length l

/-- `utfbom.SkipOnly`: strip a leading byte-order mark (UTF-32 forms first,
then UTF-16, then UTF-8), leaving the input unchanged when none is present. -/
def skipBOM (l : GoStr) : GoStr :=
  match l with
  | 0 :: 0 :: 254 :: 255 :: rest => rest
  | 255 :: 254 :: 0 :: 0 :: rest => rest
  | 254 :: 255 :: rest => rest
  | 255 :: 254 :: rest => rest
  | 239 :: 187 :: 191 :: rest => rest
  | _ => l

/-- `dropCR` from `bufio.ScanLines`: remove one trailing carriage return. -/
def dropCR (l : GoStr) : GoStr :=
  match l.getLast? with
  | some 13 => l.dropLast
  | _ => l

/-- Accumulator pass of `bufio.Scanner` with `ScanLines`: split on newline
(byte 10), strip one trailing carriage return per line, and emit a final
unterminated line only when non-empty. -/
def splitLinesAux : GoStr → GoStr → List GoStr
  | [], acc => if acc = [] then [] else [dropCR acc.reverse]
  | b :: rest, acc =>
      if b = 10 then dropCR acc.reverse :: splitLinesAux rest []
      else splitLinesAux rest (b :: acc)

/-- The lines a `bufio.Scanner` over the content yields. -/
def splitLines (l : GoStr) : List GoStr := splitLinesAux l []

example : splitLines (ascii ("a=1\nb=2\n")) = [ascii ("a=1"), ascii ("b=2")] := by decide
example : splitLines (ascii ("a\r\nb")) = [ascii ("a"), ascii ("b")] := by decide
example : splitLines [] = [] := rfl
example : trimLeftSpace (ascii ("  x y")) = ascii ("x y") := by decide
example : trimLeftSpace [226, 128, 168, 65] = [65] := by decide
example : utf8Valid [195, 169] = true := by decide
example : utf8Valid [195] = false := by decide
example : utf8Valid [237, 160, 128] = false := by decide

/-! ## Dotenv parsing (`parseDotEnvLine`, `parseDotEnvContent`). -/

/-- `strings.SplitN(s, sep, 2)` at the first `=` (byte 61): `none` when the
line holds no `=`, otherwise the text before and after the first one. -/
def splitFirstEq : GoStr → Option (GoStr × GoStr)
  | [] => none
  | b :: rest =>
      if b = 61 then some ([], rest)
      else (splitFirstEq rest).map (fun p => (b :: p.1, p.2))

/-- `parseDotEnvLine`: reject invalid UTF-8, left-trim whitespace, skip blank
and `#` lines, fail without `=`, otherwise store the base64-encoded value
under the key. -/
def parseDotEnvLine (line : GoStr) (data : kvMapF) : Except GoStr kvMapF :=
  if utf8Valid line = false then .error (ascii ("invalid utf8 sequence"))
  else
    match trimLeftSpace line with
    | [] => .ok data
    | b :: rest =>
        if b = 35 then .ok data
        else
          match splitFirstEq (b :: rest) with
          | none => .error (ascii ("requires value: ") ++ (b :: rest))
          | some p => .ok (update data p.1 (b64Encode p.2))

/-- Scanner loop of `parseDotEnvContent`: each line in turn, wrapping a line
failure with its 0-based line number. -/
def parseDotEnvLines (lines : List GoStr) (lineNum : Nat) (data : kvMapF) :
    Except GoStr kvMapF :=
  match lines with
  | [] => .ok data
  | l :: ls =>
      match parseDotEnvLine l data with
      | .error e => .error (wrapErr (ascii ("line ") ++ natToDec lineNum) e)
      | .ok d => parseDotEnvLines ls (lineNum + 1) d

/-- `parseDotEnvContent`: BOM-strip, split into lines, parse each. -/
def parseDotEnvContent (content : GoStr) (data : kvMapF) : Except GoStr kvMapF :=
  parseDotEnvLines (splitLines (skipBOM content)) 0 data

/-! ## Format classification and the external environment. -/

/-- The four content-format tags of the classifier. -/
inductive SopsFormat
  | yaml
  | json
  | dotenv
  | binary
deriving DecidableEq

/-- `formatForPath`: extension convention only, per the sops helpers
(`IsYAMLFile`/`IsJSONFile`/`IsEnvFile` are suffix tests for `.yaml`/`.yml`,
`.json`, `.env`); anything else is `binary`. -/
def formatForPath (path : GoStr) : SopsFormat :=
  if (ascii (".yaml")).isSuffixOf path || (ascii (".yml")).isSuffixOf path then .yaml
  else if (ascii (".json")).isSuffixOf path then .json
  else if (ascii (".env")).isSuffixOf path then .dotenv
  else .binary

/-- The generator descriptor (`SopsSecretGenerator` in the source), after
unmarshalling. -/
structure SopsSecretGenerator where
  APIVersion : GoStr
  Kind : GoStr
  Name : GoStr
  Namespace : GoStr
  Labels : kvMapF
  Annotations : kvMapF
  EnvSources : List GoStr
  FileSources : List GoStr
  Behavior : GoStr
  DisableNameSuffixHash : Bool
  Type_ : GoStr

/-- The generated Kubernetes `Secret`. -/
structure Secret where
  APIVersion : GoStr
  Kind : GoStr
  Name : GoStr
  Namespace : GoStr
  Labels : kvMapF
  Annotations : kvMapF
  Data : kvMapF
  Type_ : GoStr

/-- External collaborators, specified only through their interfaces: the
filesystem, the YAML unmarshaller for descriptors, the sops decryption
oracle, and the YAML/JSON parsers producing flat string→string maps (given
as association lists in the iteration order `range` would take; within one
document the keys are distinct). -/
structure Env where
  readFile : GoStr → Except GoStr GoStr
  unmarshalSSG : GoStr → Except GoStr SopsSecretGenerator
  decrypt : GoStr → SopsFormat → Except GoStr GoStr
  parseYAMLkv : GoStr → Except GoStr (List (GoStr × GoStr))
  parseJSONkv : GoStr → Except GoStr (List (GoStr × GoStr))

/-- Shared body of `parseYAMLContent`/`parseJSONContent`: base64-encode every
value of the parsed document and write it into the running map. -/
def mergeB64 (d : List (GoStr × GoStr)) (data : kvMapF) : kvMapF :=
  d.foldl (fun m p => update m p.1 (b64Encode p.2)) data

/-- `parseYAMLContent`: unmarshal into a flat map, then merge. -/
def parseYAMLContent (env : Env) (content : GoStr) (data : kvMapF) :
    Except GoStr kvMapF :=
  match env.parseYAMLkv content with
  | .error e => .error e
  | .ok d => .ok (mergeB64 d data)

/-- `parseJSONContent`: unmarshal into a flat map, then merge. -/
def parseJSONContent (env : Env) (content : GoStr) (data : kvMapF) :
    Except GoStr kvMapF :=
  match env.parseJSONkv content with
  | .error e => .error e
  | .ok d => .ok (mergeB64 d data)

/-- `parseEnvSource`: read, classify, decrypt, then dispatch on the format;
`binary` is rejected for whole-document sources. -/
def parseEnvSource (env : Env) (source : GoStr) (data : kvMapF) :
    Except GoStr kvMapF :=
  match env.readFile source with
  | .error e => .error e
  | .ok content =>
      match env.decrypt content (formatForPath source) with
      | .error e => .error e
      | .ok decrypted =>
          match formatForPath source with
          | .dotenv => parseDotEnvContent decrypted data
          | .yaml => parseYAMLContent env decrypted data
          | .json => parseJSONContent env decrypted data
          | .binary => .error (ascii ("unknown file format, use dotenv, yaml or json"))

/-- `parseEnvSources`: each source in declaration order; the first failure is
wrapped with the source string and aborts. -/
def parseEnvSources (env : Env) (sources : List GoStr) (data : kvMapF) :
    Except GoStr kvMapF :=
  match sources with
  | [] => .ok data
  | s :: ss =>
      match parseEnvSource env s data with
      | .error e => .error (wrapErr (ascii ("env source ") ++ s) e)
      | .ok d => parseEnvSources env ss d

/-! ## Single-file sources (`parseFileName`, `parseFileSource`). -/

/-- `strings.Split(s, "=")` for the one-byte separator `=`. -/
def goSplitEq : GoStr → List GoStr
  | [] => [[]]
  | b :: rest =>
      if b = 61 then [] :: goSplitEq rest
      else
        match goSplitEq rest with
        | t :: ts => (b :: t) :: ts
        | [] => [[b]]

/-- `path.Base`: strip trailing slashes, then keep everything after the last
slash; empty input gives `"."` and an all-slash input gives `"/"`. -/
def pathBase (s : GoStr) : GoStr :=
  if s = [] then [46]
  else
    let t := (s.reverse.dropWhile (fun b => b = 47)).reverse
    let b := (t.reverse.takeWhile (fun b => b ≠ 47)).reverse
    if b = [] then [47] else b

/-- `strings.TrimPrefix(s, "=")`. -/
def trimPrefixEq : GoStr → GoStr
  | 61 :: rest => rest
  | s => s

/-- `strings.TrimSuffix(s, "=")`. -/
def trimSuffixEq (s : GoStr) : GoStr :=
  match s.getLast? with
  | some 61 => s.dropLast
  | _ => s

/-- `parseFileName`: split the `[key=]path` specification on `=`. -/
def parseFileName (source : GoStr) : Except GoStr (GoStr × GoStr) :=
  match goSplitEq source with
  | [_] => .ok (pathBase source, source)
  | [key, fn] =>
      if key = [] then
        .error (ascii ("key name for file path ") ++ trimPrefixEq source ++ ascii (" missing"))
      else if fn = [] then
        .error (ascii ("file path for key name ") ++ trimSuffixEq source ++ ascii (" missing"))
      else .ok (key, fn)
  | _ => .error (ascii ("key names or file paths cannot contain ") ++ [39, 61, 39])

/-- `parseFileSource`: resolve the key and path, read, decrypt with the
format classified from the whole source string, and store the entire
decrypted payload base64-encoded under the key. -/
def parseFileSource (env : Env) (source : GoStr) (data : kvMapF) :
    Except GoStr kvMapF :=
  match parseFileName source with
  | .error e => .error e
  | .ok kf =>
      match env.readFile kf.2 with
      | .error e => .error e
      | .ok content =>
          match env.decrypt content (formatForPath source) with
          | .error e => .error e
          | .ok decrypted => .ok (update data kf.1 (b64Encode decrypted))

/-- `parseFileSources`: each source in declaration order; the first failure
is wrapped with the source string and aborts. -/
def parseFileSources (env : Env) (sources : List GoStr) (data : kvMapF) :
    Except GoStr kvMapF :=
  match sources with
  | [] => .ok data
  | s :: ss =>
      match parseFileSource env s data with
      | .error e => .error (wrapErr (ascii ("file source ") ++ s) e)
      | .ok d => parseFileSources env ss d

/-- `parseInput`: all envSources first, then all fileSources, over one
running map. -/
def parseInput (env : Env) (input : SopsSecretGenerator) : Except GoStr kvMapF :=
  match parseEnvSources env input.EnvSources emptyMap with
  | .error e => .error e
  | .ok d =>
      match parseFileSources env input.FileSources d with
      | .error e => .error e
      | .ok d2 => .ok d2

/-! ## Manifest assembly and descriptor loading. -/

/-- The needs-hash annotation key. -/
def needsHashKey : GoStr := ascii ("kustomize.config.k8s.io/needs-hash")

/-- The behavior annotation key. -/
def behaviorKey : GoStr := ascii ("kustomize.config.k8s.io/behavior")

/-- `generateSecret`: resolve the data, build the annotations (explicit ones,
then needs-hash unless disabled, then behavior when non-empty), and assemble
the Secret. -/
def generateSecret (env : Env) (sopsSecret : SopsSecretGenerator) :
    Except GoStr Secret :=
  match parseInput env sopsSecret with
  | .error e => .error e
  | .ok data =>
      let ann0 : kvMapF := fun k => sopsSecret.Annotations k
      let ann1 :=
        if sopsSecret.DisableNameSuffixHash then ann0
        else update ann0 needsHashKey (ascii ("true"))
      let ann2 :=
        if sopsSecret.Behavior = [] then ann1
        else update ann1 behaviorKey sopsSecret.Behavior
      .ok { APIVersion := ascii ("v1"), Kind := ascii ("Secret"),
            Name := sopsSecret.Name, Namespace := sopsSecret.Namespace,
            Labels := sopsSecret.Labels, Annotations := ann2,
            Data := data, Type_ := sopsSecret.Type_ }

/-- The expected `apiVersion` constant. -/
def apiVersionConst : GoStr := ascii ("kustomize.meiqia.com/v1beta1")

/-- The expected `kind` constant. -/
def kindConst : GoStr := ascii ("SopsSecretGenerator")

/-- `readInput`: read the descriptor file, unmarshal it, and validate the
type pair and the name. -/
def readInput (env : Env) (fn : GoStr) : Except GoStr SopsSecretGenerator :=
  match env.readFile fn with
  | .error e => .error e
  | .ok content =>
      match env.unmarshalSSG content with
      | .error e => .error e
      | .ok input =>
          if input.APIVersion ≠ apiVersionConst ∨ input.Kind ≠ kindConst then
            .error (ascii ("input must be apiVersion kustomize.meiqia.com/v1beta1, kind SopsSecretGenerator"))
          else if input.Name = [] then
            .error (ascii ("input must contain metadata.name value"))
          else .ok input

/-- `processSopsSecretGenerator` up to the generated Secret (its final YAML
serialization is an external capability). -/
def processSopsSecretGenerator (env : Env) (fn : GoStr) : Except GoStr Secret :=
  match readInput env fn with
  | .error e => .error e
  | .ok input => generateSecret env input

/-! ## The merge law: resolution as a pair sequence folded into the map. -/

/-- The Data Merger's fold: write each pair into the map, in order. -/
def mergePairs (ps : List (GoStr × GoStr)) (m : kvMapF) : kvMapF :=
  ps.foldl (fun m p => update m p.1 p.2) m

/-- Value of the last pair in the sequence carrying key `k`. -/
def lastVal (ps : List (GoStr × GoStr)) (k : GoStr) : Option GoStr :=
  match ps with
  | [] => none
  | p :: rest =>
      match lastVal rest k with
      | some v => some v
      | none => if p.1 = k then some p.2 else none

/-- `Except.isOk` specialised to the parser result type. -/
def isOkE (r : Except GoStr kvMapF) : Bool :=
  match r with
  | .ok _ => true
  | .error _ => false

lemma mergePairs_lookup (ps : List (GoStr × GoStr)) (m : kvMapF) (k : GoStr) :
    mergePairs ps m k =
      match lastVal ps k with
      | some v => some v
      | none => m k := by
  induction ps generalizing m with
  | nil => rfl
  | cons p rest ih =>
      show mergePairs rest (update m p.1 p.2) k = _
      rw [ih]
      cases hl : lastVal rest k with
      | some v => simp [lastVal, hl]
      | none =>
          simp only [lastVal, hl, update]
          by_cases hk : p.1 = k
          · simp [hk]
          · simp [hk, Ne.symm hk]

lemma lastVal_append (a b : List (GoStr × GoStr)) (k : GoStr) :
    lastVal (a ++ b) k =
      match lastVal b k with
      | some v => some v
      | none => lastVal a k := by
  induction a with
  | nil => cases hb : lastVal b k <;> simp [lastVal, hb]
  | cons p a' ih =>
      simp only [List.cons_append, lastVal, List.append_eq]
      rw [ih]
      cases hb : lastVal b k <;> cases ha : lastVal a' k <;> simp [hb, ha]

lemma lastVal_of_not_mem (ps : List (GoStr × GoStr)) (k : GoStr)
    (h : ∀ p ∈ ps, p.1 ≠ k) : lastVal ps k = none := by
  induction ps with
  | nil => rfl
  | cons p rest ih =>
      simp only [lastVal, ih (fun q hq => h q (by simp [hq]))]
      simp [h p (by simp)]

/-! ## The pair batches each source contributes, and their agreement with
the in-place parsers. -/

/-- The pairs one dotenv line contributes (the per-line view of
`parseDotEnvLine`). -/
def dotenvLinePairs (line : GoStr) : Except GoStr (List (GoStr × GoStr)) :=
  if utf8Valid line = false then .error (ascii ("invalid utf8 sequence"))
  else
    match trimLeftSpace line with
    | [] => .ok []
    | b :: rest =>
        if b = 35 then .ok []
        else
          match splitFirstEq (b :: rest) with
          | none => .error (ascii ("requires value: ") ++ (b :: rest))
          | some p => .ok [(p.1, b64Encode p.2)]

/-- The pairs a dotenv line list contributes, with line numbering. -/
def dotenvLinesPairs (lines : List GoStr) (lineNum : Nat) :
    Except GoStr (List (GoStr × GoStr)) :=
  match lines with
  | [] => .ok []
  | l :: ls =>
      match dotenvLinePairs l with
      | .error e => .error (wrapErr (ascii ("line ") ++ natToDec lineNum) e)
      | .ok ps =>
          match dotenvLinesPairs ls (lineNum + 1) with
          | .error e => .error e
          | .ok rest => .ok (ps ++ rest)

/-- The pairs a whole dotenv document contributes. -/
def dotenvPairs (content : GoStr) : Except GoStr (List (GoStr × GoStr)) :=
  dotenvLinesPairs (splitLines (skipBOM content)) 0

/-- The pair batch one envSources entry contributes. -/
def envSourceBatch (env : Env) (source : GoStr) :
    Except GoStr (List (GoStr × GoStr)) :=
  match env.readFile source with
  | .error e => .error e
  | .ok content =>
      match env.decrypt content (formatForPath source) with
      | .error e => .error e
      | .ok decrypted =>
          match formatForPath source with
          | .dotenv => dotenvPairs decrypted
          | .yaml =>
              match env.parseYAMLkv decrypted with
              | .error e => .error e
              | .ok d => .ok (d.map (fun p => (p.1, b64Encode p.2)))
          | .json =>
              match env.parseJSONkv decrypted with
              | .error e => .error e
              | .ok d => .ok (d.map (fun p => (p.1, b64Encode p.2)))
          | .binary => .error (ascii ("unknown file format, use dotenv, yaml or json"))

/-- The concatenated pair sequence of a list of envSources, with the
per-source error wrapping. -/
def envSourcesPairs (env : Env) : List GoStr → Except GoStr (List (GoStr × GoStr))
  | [] => .ok []
  | s :: ss =>
      match envSourceBatch env s with
      | .error e => .error (wrapErr (ascii ("env source ") ++ s) e)
      | .ok b =>
          match envSourcesPairs env ss with
          | .error e => .error e
          | .ok r => .ok (b ++ r)

/-- The single pair one fileSources entry contributes. -/
def fileSourceBatch (env : Env) (source : GoStr) :
    Except GoStr (List (GoStr × GoStr)) :=
  match parseFileName source with
  | .error e => .error e
  | .ok kf =>
      match env.readFile kf.2 with
      | .error e => .error e
      | .ok content =>
          match env.decrypt content (formatForPath source) with
          | .error e => .error e
          | .ok decrypted => .ok [(kf.1, b64Encode decrypted)]

/-- The concatenated pair sequence of a list of fileSources. -/
def fileSourcesPairs (env : Env) : List GoStr → Except GoStr (List (GoStr × GoStr))
  | [] => .ok []
  | s :: ss =>
      match fileSourceBatch env s with
      | .error e => .error (wrapErr (ascii ("file source ") ++ s) e)
      | .ok b =>
          match fileSourcesPairs env ss with
          | .error e => .error e
          | .ok r => .ok (b ++ r)

/-- The full pair sequence of a descriptor, in processing order: all
envSources first, then all fileSources. -/
def inputPairs (env : Env) (input : SopsSecretGenerator) :
    Except GoStr (List (GoStr × GoStr)) :=
  match envSourcesPairs env input.EnvSources with
  | .error e => .error e
  | .ok a =>
      match fileSourcesPairs env input.FileSources with
      | .error e => .error e
      | .ok b => .ok (a ++ b)

lemma mergePairs_append (a b : List (GoStr × GoStr)) (m : kvMapF) :
    mergePairs (a ++ b) m = mergePairs b (mergePairs a m) := by
  simp [mergePairs, List.foldl_append]

lemma parseDotEnvLine_pairs (line : GoStr) (data : kvMapF) :
    parseDotEnvLine line data =
      (dotenvLinePairs line).map (fun ps => mergePairs ps data) := by
  unfold parseDotEnvLine dotenvLinePairs
  split
  · rfl
  · split
    · rfl
    · split
      · rfl
      · split
        · rfl
        · rfl

lemma parseDotEnvLines_pairs (lines : List GoStr) (n : Nat) (data : kvMapF) :
    parseDotEnvLines lines n data =
      (dotenvLinesPairs lines n).map (fun ps => mergePairs ps data) := by
  induction lines generalizing n data with
  | nil => rfl
  | cons l ls ih =>
      simp only [parseDotEnvLines, dotenvLinesPairs, parseDotEnvLine_pairs l data]
      cases hl : dotenvLinePairs l with
      | error e => rfl
      | ok ps =>
          simp only [Except.map, ih (n + 1) (mergePairs ps data)]
          cases dotenvLinesPairs ls (n + 1) with
          | error e => rfl
          | ok rest => simp [Except.map, mergePairs_append]

lemma parseDotEnvContent_pairs (content : GoStr) (data : kvMapF) :
    parseDotEnvContent content data =
      (dotenvPairs content).map (fun ps => mergePairs ps data) := by
  simpa [parseDotEnvContent, dotenvPairs] using
    parseDotEnvLines_pairs (splitLines (skipBOM content)) 0 data

lemma parseEnvSource_pairs (env : Env) (source : GoStr) (data : kvMapF) :
    parseEnvSource env source data =
      (envSourceBatch env source).map (fun ps => mergePairs ps data) := by
  unfold parseEnvSource envSourceBatch
  cases env.readFile source with
  | error e => rfl
  | ok content =>
      dsimp only
      cases env.decrypt content (formatForPath source) with
      | error e => rfl
      | ok decrypted =>
          dsimp only
          cases formatForPath source with
          | dotenv => exact parseDotEnvContent_pairs decrypted data
          | yaml =>
              simp only [parseYAMLContent]
              cases env.parseYAMLkv decrypted with
              | error e => rfl
              | ok d =>
                  dsimp only
                  simp [Except.map, mergeB64, mergePairs, List.foldl_map]
          | json =>
              simp only [parseJSONContent]
              cases env.parseJSONkv decrypted with
              | error e => rfl
              | ok d =>
                  dsimp only
                  simp [Except.map, mergeB64, mergePairs, List.foldl_map]
          | binary => rfl

lemma parseEnvSources_pairs (env : Env) (sources : List GoStr) (data : kvMapF) :
    parseEnvSources env sources data =
      (envSourcesPairs env sources).map (fun ps => mergePairs ps data) := by
  induction sources generalizing data with
  | nil => rfl
  | cons s ss ih =>
      simp only [parseEnvSources, envSourcesPairs, parseEnvSource_pairs env s data]
      cases envSourceBatch env s with
      | error e => rfl
      | ok b =>
          simp only [Except.map, ih (mergePairs b data)]
          cases envSourcesPairs env ss with
          | error e => rfl
          | ok r => simp [Except.map, mergePairs_append]

lemma parseFileSource_pairs (env : Env) (source : GoStr) (data : kvMapF) :
    parseFileSource env source data =
      (fileSourceBatch env source).map (fun ps => mergePairs ps data) := by
  unfold parseFileSource fileSourceBatch
  cases parseFileName source with
  | error e => rfl
  | ok kf =>
      dsimp only
      cases env.readFile kf.2 with
      | error e => rfl
      | ok content =>
          dsimp only
          cases env.decrypt content (formatForPath source) with
          | error e => rfl
          | ok decrypted => rfl

lemma parseFileSources_pairs (env : Env) (sources : List GoStr) (data : kvMapF) :
    parseFileSources env sources data =
      (fileSourcesPairs env sources).map (fun ps => mergePairs ps data) := by
  induction sources generalizing data with
  | nil => rfl
  | cons s ss ih =>
      simp only [parseFileSources, fileSourcesPairs, parseFileSource_pairs env s data]
      cases fileSourceBatch env s with
      | error e => rfl
      | ok b =>
          simp only [Except.map, ih (mergePairs b data)]
          cases fileSourcesPairs env ss with
          | error e => rfl
          | ok r => simp [Except.map, mergePairs_append]

lemma parseInput_pairs (env : Env) (input : SopsSecretGenerator) :
    parseInput env input =
      (inputPairs env input).map (fun ps => mergePairs ps emptyMap) := by
  unfold parseInput inputPairs
  rw [parseEnvSources_pairs]
  cases envSourcesPairs env input.EnvSources with
  | error e => rfl
  | ok a =>
      simp only [Except.map]
      rw [parseFileSources_pairs]
      cases fileSourcesPairs env input.FileSources with
      | error e => rfl
      | ok b => simp [Except.map, mergePairs_append]

/-! ## Splitting lemmas. -/

lemma goSplitEq_ne_nil (s : GoStr) : goSplitEq s ≠ [] := by
  cases s with
  | nil => simp [goSplitEq]
  | cons b rest =>
      simp only [goSplitEq]
      split
      · simp
      · split <;> simp

lemma goSplitEq_no_sep (s : GoStr) (h : 61 ∉ s) : goSplitEq s = [s] := by
  induction s with
  | nil => rfl
  | cons b rest ih =>
      have hb : b ≠ 61 := by intro hb; exact h (by simp [hb])
      have hr : 61 ∉ rest := fun hx => h (by simp [hx])
      simp [goSplitEq, hb, ih hr]

lemma goSplitEq_sep (k rest : GoStr) (h : 61 ∉ k) :
    goSplitEq (k ++ 61 :: rest) = k :: goSplitEq rest := by
  induction k with
  | nil => simp [goSplitEq]
  | cons b k' ih =>
      have hb : b ≠ 61 := by intro hb; exact h (by simp [hb])
      have hk : 61 ∉ k' := fun hx => h (by simp [hx])
      simp only [List.cons_append, goSplitEq, hb, if_false, List.append_eq]
      rw [ih hk]

lemma splitFirstEq_none (l : GoStr) (h : 61 ∉ l) : splitFirstEq l = none := by
  induction l with
  | nil => rfl
  | cons b rest ih =>
      have hb : b ≠ 61 := by intro hb; exact h (by simp [hb])
      have hr : 61 ∉ rest := fun hx => h (by simp [hx])
      simp [splitFirstEq, hb, ih hr]

lemma splitFirstEq_some (k v : GoStr) (h : 61 ∉ k) :
    splitFirstEq (k ++ 61 :: v) = some (k, v) := by
  induction k with
  | nil => simp [splitFirstEq]
  | cons b k' ih =>
      have hb : b ≠ 61 := by intro hb; exact h (by simp [hb])
      have hk : 61 ∉ k' := fun hx => h (by simp [hx])
      simp [splitFirstEq, hb, ih hk]

lemma isSubSeg_of_isPrefixOf (p s : GoStr) (h : p.isPrefixOf s = true) :
    isSubSeg p s = true := by
  cases s <;> simp [isSubSeg, h]

lemma isSubSeg_middle (p a b : GoStr) : isSubSeg p (a ++ p ++ b) = true := by
  induction a with
  | nil =>
      refine isSubSeg_of_isPrefixOf _ _ ?_
      simp [ List.isPrefixOf_iff_prefix]
  | cons x a' ih =>
      have hshape : (x :: a') ++ p ++ b = x :: (a' ++ p ++ b) := by simp
      rw [hshape]
      simp only [isSubSeg]
      rw [List.append_assoc] at ih
      simp [ih]

/-! ## Claim C1: last-write-wins merge. -/

/-- C1.  Last-write-wins: whenever the descriptor's sources resolve (in
declaration order: all envSources, then all fileSources) to the pair
sequence `ps1 ++ (K, v) :: ps2` and no later pair carries key `K`, then
`parseInput` succeeds — a key collision raises no error — and the final
data map's value at `K` is `v`, the most recently processed write. -/
theorem claim1_last_write_wins (env : Env) (input : SopsSecretGenerator)
    (ps1 ps2 : List (GoStr × GoStr)) (K v : GoStr)
    (hps : inputPairs env input = .ok (ps1 ++ (K, v) :: ps2))
    (hK : ∀ p ∈ ps2, p.1 ≠ K) :
    parseInput env input = .ok (mergePairs (ps1 ++ (K, v) :: ps2) emptyMap) ∧
    mergePairs (ps1 ++ (K, v) :: ps2) emptyMap K = some v := by
  constructor
  · rw [parseInput_pairs, hps]; rfl
  · have h2 : lastVal ((K, v) :: ps2) K = some v := by
      simp [lastVal, lastVal_of_not_mem ps2 K hK]
    have h3 : lastVal (ps1 ++ (K, v) :: ps2) K = some v := by
      rw [lastVal_append, h2]
    rw [mergePairs_lookup, h3]

/-- Environment for the C1 witness: two dotenv env sources that both yield
key `K`. -/
def wEnv1 : Env :=
  { readFile := fun p =>
      if p = ascii ("a.env") then .ok (ascii ("K=1"))
      else if p = ascii ("b.env") then .ok (ascii ("K=2"))
      else .error (ascii ("no such file")),
    unmarshalSSG := fun _ => .error (ascii ("unused")),
    decrypt := fun content _ => .ok content,
    parseYAMLkv := fun _ => .error (ascii ("unused")),
    parseJSONkv := fun _ => .error (ascii ("unused")) }

/-- Descriptor for the C1 witness. -/
def wInput1 : SopsSecretGenerator :=
  { APIVersion := apiVersionConst, Kind := kindConst, Name := ascii ("secret"),
    Namespace := [], Labels := emptyMap, Annotations := emptyMap,
    EnvSources := [ascii ("a.env"), ascii ("b.env")], FileSources := [],
    Behavior := [], DisableNameSuffixHash := false, Type_ := [] }

/-- Witness for C1 at a concrete collision: both sources write `K`, and the
later one's value is the one kept. -/
theorem claim1_witness :
    parseInput wEnv1 wInput1 =
      .ok (mergePairs ([(ascii ("K"), b64Encode (ascii ("1")))] ++
        (ascii ("K"), b64Encode (ascii ("2"))) :: []) emptyMap) ∧
    mergePairs ([(ascii ("K"), b64Encode (ascii ("1")))] ++
        (ascii ("K"), b64Encode (ascii ("2"))) :: []) emptyMap (ascii ("K")) =
      some (b64Encode (ascii ("2"))) :=
  claim1_last_write_wins wEnv1 wInput1 [(ascii ("K"), b64Encode (ascii ("1")))] []
    (ascii ("K")) (b64Encode (ascii ("2"))) (by rfl) (by simp)

/-! ## Claim C2: round-trip encoding. -/

/-- C2.  Round-trip encoding: a file source whose decrypted payload is `V`
stores exactly the standard (padded) base64 encoding of `V` under its key,
and base64-decoding that stored entry recovers `V` exactly. -/
theorem claim2_round_trip (env : Env) (source key fn content V : GoStr)
    (data : kvMapF)
    (hpf : parseFileName source = .ok (key, fn))
    (hread : env.readFile fn = .ok content)
    (hdec : env.decrypt content (formatForPath source) = .ok V)
    (hV : ∀ b ∈ V, b < 256) :
    parseFileSource env source data = .ok (update data key (b64Encode V)) ∧
    update data key (b64Encode V) key = some (b64Encode V) ∧
    b64Decode (b64Encode V) = some V := by
  refine ⟨?_, by simp [update], b64_roundtrip V hV⟩
  unfold parseFileSource
  rw [hpf]
  dsimp only
  rw [hread]
  dsimp only
  rw [hdec]

/-- Environment for the C2 witness: one binary file whose decrypted payload
is the two bytes `0x01 0x02`. -/
def wEnv2 : Env :=
  { readFile := fun p =>
      if p = ascii ("b.bin") then .ok [1, 2] else .error (ascii ("no such file")),
    unmarshalSSG := fun _ => .error (ascii ("unused")),
    decrypt := fun content _ => .ok content,
    parseYAMLkv := fun _ => .error (ascii ("unused")),
    parseJSONkv := fun _ => .error (ascii ("unused")) }

/-- Witness for C2 at the spec's end-to-end example bytes. -/
theorem claim2_witness :
    parseFileSource wEnv2 (ascii ("b.bin")) emptyMap =
      .ok (update emptyMap (ascii ("b.bin")) (b64Encode [1, 2])) ∧
    update emptyMap (ascii ("b.bin")) (b64Encode [1, 2]) (ascii ("b.bin")) =
      some (b64Encode [1, 2]) ∧
    b64Decode (b64Encode [1, 2]) = some [1, 2] :=
  claim2_round_trip wEnv2 (ascii ("b.bin")) (ascii ("b.bin")) (ascii ("b.bin"))
    [1, 2] [1, 2] emptyMap (by rfl) (by rfl) (by rfl) (by decide)

/-! ## Claim C3: single-file source specification parsing. -/

/-- C3.  `parseFileName` on a `[key=]path` specification: with no `=` the
key is the path's base filename and the path is the whole string; with one
`=` the sides are key and path, an empty side failing with the message
naming the missing side; with more than one `=` the entry is rejected. -/
theorem claim3_parse_file_name :
    (∀ s : GoStr, 61 ∉ s → parseFileName s = .ok (pathBase s, s)) ∧
    (∀ k fn : GoStr, 61 ∉ k → 61 ∉ fn → k ≠ [] → fn ≠ [] →
       parseFileName (k ++ 61 :: fn) = .ok (k, fn)) ∧
    (∀ fn : GoStr, 61 ∉ fn →
       parseFileName (61 :: fn) =
         .error (ascii ("key name for file path ") ++ fn ++ ascii (" missing"))) ∧
    (∀ k : GoStr, 61 ∉ k → k ≠ [] →
       parseFileName (k ++ [61]) =
         .error (ascii ("file path for key name ") ++ k ++ ascii (" missing"))) ∧
    (∀ a b c : GoStr, 61 ∉ a → 61 ∉ b →
       parseFileName (a ++ 61 :: b ++ 61 :: c) =
         .error (ascii ("key names or file paths cannot contain ") ++ [39, 61, 39])) := by
  refine ⟨?_, ?_, ?_, ?_, ?_⟩
  · intro s hs
    unfold parseFileName
    rw [goSplitEq_no_sep s hs]
  · intro k fn hk hfn hk0 hfn0
    unfold parseFileName
    rw [goSplitEq_sep k fn hk, goSplitEq_no_sep fn hfn]
    dsimp only
    rw [if_neg hk0, if_neg hfn0]
  · intro fn hfn
    unfold parseFileName
    have hsp : goSplitEq (61 :: fn) = [[], fn] := by
      have h0 : (61 :: fn : GoStr) = [] ++ 61 :: fn := rfl
      rw [h0, goSplitEq_sep [] fn (by simp), goSplitEq_no_sep fn hfn]
    rw [hsp]
    dsimp only
    rw [if_pos rfl]
    rfl
  · intro k hk hk0
    unfold parseFileName
    have hsp : goSplitEq (k ++ [61]) = [k, []] := by
      rw [goSplitEq_sep k [] hk]
      rfl
    rw [hsp]
    dsimp only
    rw [if_neg hk0, if_pos rfl]
    have ht : trimSuffixEq (k ++ [61]) = k := by
      unfold trimSuffixEq
      rw [List.getLast?_concat]
      exact List.dropLast_concat
    rw [ht]
  · intro a b c ha hb
    unfold parseFileName
    have hsp : goSplitEq (a ++ 61 :: b ++ 61 :: c) = a :: b :: goSplitEq c := by
      have h0 : a ++ 61 :: b ++ 61 :: c = a ++ 61 :: (b ++ 61 :: c) := by simp
      rw [h0, goSplitEq_sep a (b ++ 61 :: c) ha, goSplitEq_sep b c hb]
    rw [hsp]
    cases hgc : goSplitEq c with
    | nil => exact absurd hgc (goSplitEq_ne_nil c)
    | cons y ys => rfl

/-- Witness for C3 at the spec's example `"a/b/file.txt"`, checking the
derived key is the base filename. -/
theorem claim3_witness :
    parseFileName (ascii ("a/b/file.txt")) =
      .ok (pathBase (ascii ("a/b/file.txt")), ascii ("a/b/file.txt")) ∧
    pathBase (ascii ("a/b/file.txt")) = ascii ("file.txt") :=
  ⟨claim3_parse_file_name.1 (ascii ("a/b/file.txt")) (by decide), by decide⟩

/-! ## Per-line dotenv lemmas. -/

lemma parseDotEnvLine_invalid (line : GoStr) (data : kvMapF)
    (h : utf8Valid line = false) :
    parseDotEnvLine line data = .error (ascii ("invalid utf8 sequence")) := by
  unfold parseDotEnvLine
  rw [if_pos h]

lemma parseDotEnvLine_skip_blank (line : GoStr) (data : kvMapF)
    (h1 : utf8Valid line = true) (h2 : trimLeftSpace line = []) :
    parseDotEnvLine line data = .ok data := by
  unfold parseDotEnvLine
  rw [if_neg (by simp [h1]), h2]

lemma parseDotEnvLine_skip_comment (line : GoStr) (data : kvMapF) (rest : GoStr)
    (h1 : utf8Valid line = true) (h2 : trimLeftSpace line = 35 :: rest) :
    parseDotEnvLine line data = .ok data := by
  unfold parseDotEnvLine
  rw [if_neg (by simp [h1]), h2]
  simp

lemma parseDotEnvLine_noeq (line : GoStr) (data : kvMapF) (b : Nat) (rest : GoStr)
    (h1 : utf8Valid line = true) (h2 : trimLeftSpace line = b :: rest)
    (h3 : b ≠ 35) (h4 : 61 ∉ b :: rest) :
    parseDotEnvLine line data =
      .error (ascii ("requires value: ") ++ (b :: rest)) := by
  unfold parseDotEnvLine
  rw [if_neg (by simp [h1]), h2]
  simp [h3, splitFirstEq_none _ h4]

lemma parseDotEnvLine_store (line : GoStr) (data : kvMapF) (k v : GoStr)
    (h1 : utf8Valid line = true) (h2 : trimLeftSpace line = k ++ 61 :: v)
    (h3 : 61 ∉ k) (h4 : (k ++ 61 :: v).head? ≠ some 35) :
    parseDotEnvLine line data = .ok (update data k (b64Encode v)) := by
  have hsp := splitFirstEq_some k v h3
  unfold parseDotEnvLine
  rw [if_neg (by simp [h1]), h2]
  cases k with
  | nil =>
      simp only [List.nil_append] at hsp ⊢
      simp [hsp]
  | cons a k' =>
      have ha35 : a ≠ 35 := by
        intro h
        exact h4 (by simp [h])
      simp only [List.cons_append] at hsp ⊢
      simp [ha35, hsp]

lemma parseDotEnvLines_error (pre : List GoStr) (l : GoStr) (post : List GoStr)
    (e : GoStr) (n : Nat) (data : kvMapF)
    (hpre : ∀ p ∈ pre, ∀ d : kvMapF, isOkE (parseDotEnvLine p d) = true)
    (hl : ∀ d : kvMapF, parseDotEnvLine l d = .error e) :
    parseDotEnvLines (pre ++ l :: post) n data =
      .error (wrapErr (ascii ("line ") ++ natToDec (n + pre.length)) e) := by
  induction pre generalizing n data with
  | nil =>
      show parseDotEnvLines (l :: post) n data = _
      unfold parseDotEnvLines
      rw [hl data]
      simp
  | cons p pre' ih =>
      have hp := hpre p (by simp) data
      cases hpd : parseDotEnvLine p data with
      | error e' => rw [hpd] at hp; simp [isOkE] at hp
      | ok d' =>
          show parseDotEnvLines (p :: (pre' ++ l :: post)) n data = _
          unfold parseDotEnvLines
          rw [hpd]
          dsimp only
          rw [ih (n + 1) d' (fun q hq => hpre q (by simp [hq]))]
          have heq : n + 1 + pre'.length = n + (p :: pre').length := by
            simp [List.length_cons]
            omega
          rw [heq]

lemma parseDotEnvContent_error (content : GoStr) (pre : List GoStr) (l : GoStr)
    (post : List GoStr) (e : GoStr) (data : kvMapF)
    (hsplit : splitLines (skipBOM content) = pre ++ l :: post)
    (hpre : ∀ p ∈ pre, ∀ d : kvMapF, isOkE (parseDotEnvLine p d) = true)
    (hl : ∀ d : kvMapF, parseDotEnvLine l d = .error e) :
    parseDotEnvContent content data =
      .error (wrapErr (ascii ("line ") ++ natToDec pre.length) e) := by
  unfold parseDotEnvContent
  rw [hsplit, parseDotEnvLines_error pre l post e 0 data hpre hl]
  simp

/-! ## Claim C4: dotenv parsing rules. -/

/-- C4 (amended).  Dotenv rules: after BOM-stripping and line-splitting, a
line whose left-trim is empty or starts with `#` contributes nothing; a line
with invalid UTF-8 fails immediately with the fixed message, regardless of
its content; a non-blank, non-comment line without `=` fails, the error
carrying the 0-based line number and the line's text after left-trimming
(the code reports the trimmed text, not the raw line); a valid line stores
the base64-encoded text after the first `=` under the text before it. -/
theorem claim4_dotenv_rules :
    (∀ line data, utf8Valid line = true → trimLeftSpace line = [] →
       parseDotEnvLine line data = .ok data) ∧
    (∀ line data rest, utf8Valid line = true → trimLeftSpace line = 35 :: rest →
       parseDotEnvLine line data = .ok data) ∧
    (∀ line data, utf8Valid line = false →
       parseDotEnvLine line data = .error (ascii ("invalid utf8 sequence"))) ∧
    (∀ content data pre l post b rest,
       splitLines (skipBOM content) = pre ++ l :: post →
       (∀ p ∈ pre, ∀ d : kvMapF, isOkE (parseDotEnvLine p d) = true) →
       utf8Valid l = true → trimLeftSpace l = b :: rest → b ≠ 35 →
       61 ∉ b :: rest →
       parseDotEnvContent content data =
         .error (wrapErr (ascii ("line ") ++ natToDec pre.length)
           (ascii ("requires value: ") ++ (b :: rest)))) ∧
    (∀ line data k v, utf8Valid line = true → trimLeftSpace line = k ++ 61 :: v →
       61 ∉ k → (k ++ 61 :: v).head? ≠ some 35 →
       parseDotEnvLine line data = .ok (update data k (b64Encode v))) := by
  refine ⟨?_, ?_, ?_, ?_, ?_⟩
  · exact parseDotEnvLine_skip_blank
  · intro line data rest h1 h2
    exact parseDotEnvLine_skip_comment line data rest h1 h2
  · exact parseDotEnvLine_invalid
  · intro content data pre l post b rest hsplit hpre h1 h2 h3 h4
    exact parseDotEnvContent_error content pre l post _ data hsplit hpre
      (fun d => parseDotEnvLine_noeq l d b rest h1 h2 h3 h4)
  · exact parseDotEnvLine_store

/-- Counterexample for C4 as stated: the line `"  A"` (leading whitespace,
no `=`) fails with a message carrying the trimmed text `A`; the raw line
text `"  A"` does not occur in the message. -/
theorem claim4_counterexample :
    parseDotEnvContent (ascii ("  A")) emptyMap =
      .error (ascii ("line 0: requires value: A")) ∧
    isSubSeg (ascii ("  A")) (ascii ("line 0: requires value: A")) = false :=
  ⟨by rfl, by decide⟩

/-- Witness for C4's error clause on a one-line document without `=`. -/
theorem claim4_witness :
    parseDotEnvContent (ascii ("x")) emptyMap =
      .error (ascii ("line 0: requires value: x")) :=
  claim4_dotenv_rules.2.2.2.1 (ascii ("x")) emptyMap [] (ascii ("x")) [] 120 []
    (by rfl) (by simp) (by decide) (by decide) (by decide) (by decide)

/-! ## Claim C10: dotenv lines with an empty side of the first `=`. -/

/-- C10.  A trimmed line that is non-blank, non-comment and contains `=`
parses even when a side of the first `=` is empty: `K=` stores key `K` with
the base64 encoding of the empty byte string, and `=v` stores the encoding
of `v` under the empty key. -/
theorem claim10_empty_sides :
    (∀ line data k, utf8Valid line = true → trimLeftSpace line = k ++ [61] →
       61 ∉ k → (k ++ [61]).head? ≠ some 35 →
       parseDotEnvLine line data = .ok (update data k (b64Encode []))) ∧
    (∀ line data v, utf8Valid line = true → trimLeftSpace line = 61 :: v →
       parseDotEnvLine line data = .ok (update data [] (b64Encode v))) := by
  constructor
  · intro line data k h1 h2 hk h35
    exact parseDotEnvLine_store line data k [] h1 h2 hk h35
  · intro line data v h1 h2
    exact parseDotEnvLine_store line data [] v h1 h2 (by simp) (by simp)

/-- Witness for C10 on the literal line `K=`. -/
theorem claim10_witness :
    parseDotEnvLine (ascii ("K=")) emptyMap =
      .ok (update emptyMap (ascii ("K")) (b64Encode [])) :=
  claim10_empty_sides.1 (ascii ("K=")) emptyMap (ascii ("K"))
    (by decide) (by decide) (by decide) (by decide)

/-! ## Claim C5: format asymmetry between source kinds. -/

/-- C5.  A whole-document (envSources) entry classified `binary` can never
resolve: even when reading and decryption succeed, the dispatch fails with
the fixed format error; a single-file (fileSources) entry accepts every
classification, the whole decrypted payload becoming one base64-encoded
value under the resolved key. -/
theorem claim5_format_asymmetry :
    (∀ env source data d, formatForPath source = .binary →
       parseEnvSource env source data ≠ .ok d) ∧
    (∀ env source content V data, formatForPath source = .binary →
       env.readFile source = .ok content →
       env.decrypt content SopsFormat.binary = .ok V →
       parseEnvSource env source data =
         .error (ascii ("unknown file format, use dotenv, yaml or json"))) ∧
    (∀ env source key fn content V data,
       parseFileName source = .ok (key, fn) →
       env.readFile fn = .ok content →
       env.decrypt content (formatForPath source) = .ok V →
       parseFileSource env source data = .ok (update data key (b64Encode V))) := by
  refine ⟨?_, ?_, ?_⟩
  · intro env source data d hfmt
    unfold parseEnvSource
    rw [hfmt]
    cases env.readFile source with
    | error e => simp
    | ok content =>
        dsimp only
        cases env.decrypt content SopsFormat.binary with
        | error e => simp
        | ok decrypted => simp
  · intro env source content V data hfmt hread hdec
    unfold parseEnvSource
    rw [hfmt, hread]
    dsimp only
    rw [hdec]
  · intro env source key fn content V data hpf hread hdec
    unfold parseFileSource
    rw [hpf]
    dsimp only
    rw [hread]
    dsimp only
    rw [hdec]

/-- Environment for the C5 witness: one readable binary-classified file. -/
def wEnv5 : Env :=
  { readFile := fun p =>
      if p = ascii ("d.bin") then .ok (ascii ("X")) else .error (ascii ("no such file")),
    unmarshalSSG := fun _ => .error (ascii ("unused")),
    decrypt := fun content _ => .ok content,
    parseYAMLkv := fun _ => .error (ascii ("unused")),
    parseJSONkv := fun _ => .error (ascii ("unused")) }

/-- Witness for C5: a binary-classified env source fails with the format
error even though read and decryption both succeed. -/
theorem claim5_witness :
    parseEnvSource wEnv5 (ascii ("d.bin")) emptyMap =
      .error (ascii ("unknown file format, use dotenv, yaml or json")) :=
  claim5_format_asymmetry.2.1 wEnv5 (ascii ("d.bin")) (ascii ("X")) (ascii ("X"))
    emptyMap (by decide) (by rfl) (by rfl)

/-! ## Claim C6: descriptor rejection before any source access. -/

/-- C6.  A descriptor whose `apiVersion`/`kind` differ from the expected
constants, or whose `metadata.name` is empty, makes the whole run fail with
the corresponding validation message.  The environment is quantified with
only the descriptor read and unmarshal pinned, so the result is the same
whatever any source file or the decryption oracle would return: no declared
source is consulted. -/
theorem claim6_descriptor_rejection :
    (∀ env fn content input,
       env.readFile fn = .ok content →
       env.unmarshalSSG content = .ok input →
       input.APIVersion ≠ apiVersionConst ∨ input.Kind ≠ kindConst →
       processSopsSecretGenerator env fn =
         .error (ascii ("input must be apiVersion kustomize.meiqia.com/v1beta1, kind SopsSecretGenerator"))) ∧
    (∀ env fn content input,
       env.readFile fn = .ok content →
       env.unmarshalSSG content = .ok input →
       input.APIVersion = apiVersionConst → input.Kind = kindConst →
       input.Name = [] →
       processSopsSecretGenerator env fn =
         .error (ascii ("input must contain metadata.name value"))) := by
  constructor
  · intro env fn content input hread hun hbad
    unfold processSopsSecretGenerator readInput
    rw [hread]
    dsimp only
    rw [hun]
    dsimp only
    rw [if_pos hbad]
  · intro env fn content input hread hun hapi hkind hname
    unfold processSopsSecretGenerator readInput
    rw [hread]
    dsimp only
    rw [hun]
    dsimp only
    rw [if_neg (by simp [hapi, hkind]), if_pos hname]

/-- A descriptor with the wrong type pair, for the C6 witness. -/
def wBad6 : SopsSecretGenerator :=
  { APIVersion := ascii ("v1"), Kind := ascii ("Secret"), Name := ascii ("n"),
    Namespace := [], Labels := emptyMap, Annotations := emptyMap,
    EnvSources := [ascii ("a.env")], FileSources := [], Behavior := [],
    DisableNameSuffixHash := false, Type_ := [] }

/-- Environment for the C6 witness: the descriptor file reads and
unmarshals, while every other capability fails if consulted. -/
def wEnv6 : Env :=
  { readFile := fun p =>
      if p = ascii ("gen.yaml") then .ok (ascii ("doc")) else .error (ascii ("no such file")),
    unmarshalSSG := fun c =>
      if c = ascii ("doc") then .ok wBad6 else .error (ascii ("bad yaml")),
    decrypt := fun _ _ => .error (ascii ("oracle consulted")),
    parseYAMLkv := fun _ => .error (ascii ("unused")),
    parseJSONkv := fun _ => .error (ascii ("unused")) }

/-- Witness for C6 on a concrete descriptor with mismatched type metadata. -/
theorem claim6_witness :
    processSopsSecretGenerator wEnv6 (ascii ("gen.yaml")) =
      .error (ascii ("input must be apiVersion kustomize.meiqia.com/v1beta1, kind SopsSecretGenerator")) :=
  claim6_descriptor_rejection.1 wEnv6 (ascii ("gen.yaml")) (ascii ("doc")) wBad6
    (by rfl) (by rfl) (Or.inl (by decide))

/-! ## Claim C7: annotation policy. -/

/-- C7 (amended).  The output annotations agree with the descriptor's
explicit annotations at every key other than the generated needs-hash and
behavior keys; the needs-hash key is forced to `"true"` when
`disableNameSuffixHash` is unset/false (overwriting any explicit value) and
otherwise left at the explicit value; the behavior key is forced to the
descriptor's behavior when non-empty and otherwise left at the explicit
value. -/
theorem claim7_annotations (env : Env) (input : SopsSecretGenerator)
    (secret : Secret) (h : generateSecret env input = .ok secret) :
    (∀ k, k ≠ needsHashKey → k ≠ behaviorKey →
       secret.Annotations k = input.Annotations k) ∧
    (input.DisableNameSuffixHash = false →
       secret.Annotations needsHashKey = some (ascii ("true"))) ∧
    (input.DisableNameSuffixHash = true →
       secret.Annotations needsHashKey = input.Annotations needsHashKey) ∧
    (input.Behavior ≠ [] →
       secret.Annotations behaviorKey = some input.Behavior) ∧
    (input.Behavior = [] →
       secret.Annotations behaviorKey = input.Annotations behaviorKey) := by
  have hbn : behaviorKey ≠ needsHashKey := by decide
  unfold generateSecret at h
  cases hp : parseInput env input with
  | error e =>
      rw [hp] at h
      exact absurd h (by simp)
  | ok data =>
      rw [hp] at h
      dsimp only at h
      have hs := Except.ok.inj h
      subst hs
      refine ⟨?_, ?_, ?_, ?_, ?_⟩
      · intro k hk1 hk2
        by_cases hb : input.Behavior = [] <;>
          by_cases hd : input.DisableNameSuffixHash <;>
            simp [hb, hd, update, hk1, hk2]
      · intro hd
        by_cases hb : input.Behavior = [] <;>
          simp [hb, hd, update, hbn, Ne.symm hbn]
      · intro hd
        by_cases hb : input.Behavior = [] <;>
          simp [hb, hd, update, hbn, Ne.symm hbn]
      · intro hbe
        by_cases hd : input.DisableNameSuffixHash <;> simp [hbe, hd, update]
      · intro hbe
        by_cases hd : input.DisableNameSuffixHash <;> simp [hbe, hd, update, hbn]

/-- Environment whose every capability fails: the C7 inputs declare no
sources, so none is consulted. -/
def trivEnv : Env :=
  { readFile := fun _ => .error (ascii ("unused")),
    unmarshalSSG := fun _ => .error (ascii ("unused")),
    decrypt := fun _ _ => .error (ascii ("unused")),
    parseYAMLkv := fun _ => .error (ascii ("unused")),
    parseJSONkv := fun _ => .error (ascii ("unused")) }

/-- Descriptor carrying an explicit needs-hash annotation `"false"` while
`disableNameSuffixHash` is unset: the generated annotation overwrites it. -/
def wIn7 : SopsSecretGenerator :=
  { APIVersion := apiVersionConst, Kind := kindConst, Name := ascii ("n"),
    Namespace := [], Labels := emptyMap,
    Annotations := update emptyMap needsHashKey (ascii ("false")),
    EnvSources := [], FileSources := [], Behavior := [],
    DisableNameSuffixHash := false, Type_ := [] }

/-- Counterexample for C7 as stated: the output annotations do not contain
the descriptor's explicit needs-hash annotation — its value `"false"` has
been overwritten with `"true"`. -/
theorem claim7_counterexample :
    (generateSecret trivEnv wIn7).toOption.map
        (fun s => s.Annotations needsHashKey) = some (some (ascii ("true"))) ∧
    wIn7.Annotations needsHashKey = some (ascii ("false")) ∧
    (ascii ("true") : GoStr) ≠ ascii ("false") :=
  ⟨by rfl, by rfl, by decide⟩

/-- Descriptor for the C7 witness: an unrelated explicit annotation, a
non-empty behavior, and the suffix hash enabled. -/
def wIn7b : SopsSecretGenerator :=
  { APIVersion := apiVersionConst, Kind := kindConst, Name := ascii ("n"),
    Namespace := [], Labels := emptyMap,
    Annotations := update emptyMap (ascii ("team")) (ascii ("sre")),
    EnvSources := [], FileSources := [], Behavior := ascii ("merge"),
    DisableNameSuffixHash := false, Type_ := [] }

/-- The secret `generateSecret` produces for `wIn7b`. -/
def wSec7 : Secret :=
  { APIVersion := ascii ("v1"), Kind := ascii ("Secret"), Name := ascii ("n"),
    Namespace := [], Labels := emptyMap,
    Annotations := update (update (fun k => wIn7b.Annotations k) needsHashKey
      (ascii ("true"))) behaviorKey (ascii ("merge")),
    Data := emptyMap, Type_ := [] }

/-- Witness for C7: the generated needs-hash and behavior annotations on a
concrete descriptor. -/
theorem claim7_witness :
    wSec7.Annotations needsHashKey = some (ascii ("true")) ∧
    wSec7.Annotations behaviorKey = some (ascii ("merge")) :=
  ⟨(claim7_annotations trivEnv wIn7b wSec7 (by rfl)).2.1 (by rfl),
   (claim7_annotations trivEnv wIn7b wSec7 (by rfl)).2.2.2.1 (by decide)⟩

/-! ## Claim C8: ordering of the data map. -/

/-- Environment for the C8 inputs: two readable single-value files. -/
def wEnv8 : Env :=
  { readFile := fun p =>
      if p = ascii ("p1") then .ok [1]
      else if p = ascii ("p2") then .ok [2]
      else .error (ascii ("no such file")),
    unmarshalSSG := fun _ => .error (ascii ("unused")),
    decrypt := fun content _ => .ok content,
    parseYAMLkv := fun _ => .error (ascii ("unused")),
    parseJSONkv := fun _ => .error (ascii ("unused")) }

/-- Descriptor writing key `a` then key `b`. -/
def wIn8a : SopsSecretGenerator :=
  { APIVersion := apiVersionConst, Kind := kindConst, Name := ascii ("n"),
    Namespace := [], Labels := emptyMap, Annotations := emptyMap,
    EnvSources := [], FileSources := [ascii ("a=p1"), ascii ("b=p2")],
    Behavior := [], DisableNameSuffixHash := false, Type_ := [] }

/-- Descriptor writing key `b` then key `a`. -/
def wIn8b : SopsSecretGenerator :=
  { APIVersion := apiVersionConst, Kind := kindConst, Name := ascii ("n"),
    Namespace := [], Labels := emptyMap, Annotations := emptyMap,
    EnvSources := [], FileSources := [ascii ("b=p2"), ascii ("a=p1")],
    Behavior := [], DisableNameSuffixHash := false, Type_ := [] }

/-- Counterexample for C8 as stated: two descriptors whose merges store the
same pairs with different first-store key orders produce identical data
maps (`kvMap` is a plain Go map carrying no order), so no serialization of
the resulting Secret can present entries in merge insertion order for
both. -/
theorem claim8_counterexample :
    (inputPairs wEnv8 wIn8a).map (List.map Prod.fst) =
      .ok [ascii ("a"), ascii ("b")] ∧
    (inputPairs wEnv8 wIn8b).map (List.map Prod.fst) =
      .ok [ascii ("b"), ascii ("a")] ∧
    ([ascii ("a"), ascii ("b")] : List GoStr) ≠ [ascii ("b"), ascii ("a")] ∧
    parseInput wEnv8 wIn8a = parseInput wEnv8 wIn8b := by
  refine ⟨by rfl, by rfl, by decide, ?_⟩
  have hne : (ascii ("a") : GoStr) ≠ ascii ("b") := by decide
  have ha : parseInput wEnv8 wIn8a =
      .ok (update (update emptyMap (ascii ("a")) (b64Encode [1]))
        (ascii ("b")) (b64Encode [2])) := by rfl
  have hb : parseInput wEnv8 wIn8b =
      .ok (update (update emptyMap (ascii ("b")) (b64Encode [2]))
        (ascii ("a")) (b64Encode [1])) := by rfl
  rw [ha, hb]
  congr 1
  funext x
  by_cases h1 : x = ascii ("a")
  · subst h1
    simp [update, hne]
  · by_cases h2 : x = ascii ("b")
    · subst h2
      simp [update, Ne.symm hne]
    · simp [update, h1, h2]

/-- C8 (amended).  The final data mapping is an unordered Go map: when the
sources resolve to the pair sequence `ps`, `parseInput` returns exactly the
fold of `ps` into the empty map, and that map is fully determined by the
last value written per key — it retains no insertion order, so the
serialized entry order (chosen by the external YAML library) is not the
merge insertion order. -/
theorem claim8_unordered_map (env : Env) (input : SopsSecretGenerator)
    (ps : List (GoStr × GoStr))
    (hps : inputPairs env input = .ok ps) :
    parseInput env input = .ok (mergePairs ps emptyMap) ∧
    ∀ k, mergePairs ps emptyMap k =
      match lastVal ps k with
      | some v => some v
      | none => none := by
  constructor
  · rw [parseInput_pairs, hps]
    rfl
  · intro k
    rw [mergePairs_lookup]
    cases hl : lastVal ps k <;> simp [hl, emptyMap]

/-- Witness for C8's amended statement at a concrete descriptor. -/
theorem claim8_witness :
    parseInput wEnv8 wIn8a =
      .ok (mergePairs [(ascii ("a"), b64Encode [1]), (ascii ("b"), b64Encode [2])]
        emptyMap) ∧
    mergePairs [(ascii ("a"), b64Encode [1]), (ascii ("b"), b64Encode [2])]
        emptyMap (ascii ("a")) =
      match lastVal [(ascii ("a"), b64Encode [1]), (ascii ("b"), b64Encode [2])]
          (ascii ("a")) with
      | some v => some v
      | none => none :=
  ⟨(claim8_unordered_map wEnv8 wIn8a
      [(ascii ("a"), b64Encode [1]), (ascii ("b"), b64Encode [2])] (by rfl)).1,
   (claim8_unordered_map wEnv8 wIn8a
      [(ascii ("a"), b64Encode [1]), (ascii ("b"), b64Encode [2])] (by rfl)).2
     (ascii ("a"))⟩

/-! ## Claim C9: first-failure abort with self-locating errors. -/

lemma envSourcesPairs_error (env : Env) (pre : List GoStr) (s : GoStr)
    (post : List GoStr) (e : GoStr) (ps0 : List (GoStr × GoStr))
    (hpre : envSourcesPairs env pre = .ok ps0)
    (hs : envSourceBatch env s = .error e) :
    envSourcesPairs env (pre ++ s :: post) =
      .error (wrapErr (ascii ("env source ") ++ s) e) := by
  induction pre generalizing ps0 with
  | nil =>
      show envSourcesPairs env (s :: post) = _
      unfold envSourcesPairs
      rw [hs]
  | cons p pre' ih =>
      unfold envSourcesPairs at hpre
      cases hb : envSourceBatch env p with
      | error e' =>
          rw [hb] at hpre
          simp at hpre
      | ok b =>
          rw [hb] at hpre
          dsimp only at hpre
          cases hr : envSourcesPairs env pre' with
          | error e' =>
              rw [hr] at hpre
              simp at hpre
          | ok r =>
              show envSourcesPairs env (p :: (pre' ++ s :: post)) = _
              unfold envSourcesPairs
              rw [hb]
              dsimp only
              rw [ih r hr]

lemma fileSourcesPairs_error (env : Env) (pre : List GoStr) (s : GoStr)
    (post : List GoStr) (e : GoStr) (ps0 : List (GoStr × GoStr))
    (hpre : fileSourcesPairs env pre = .ok ps0)
    (hs : fileSourceBatch env s = .error e) :
    fileSourcesPairs env (pre ++ s :: post) =
      .error (wrapErr (ascii ("file source ") ++ s) e) := by
  induction pre generalizing ps0 with
  | nil =>
      show fileSourcesPairs env (s :: post) = _
      unfold fileSourcesPairs
      rw [hs]
  | cons p pre' ih =>
      unfold fileSourcesPairs at hpre
      cases hb : fileSourceBatch env p with
      | error e' =>
          rw [hb] at hpre
          simp at hpre
      | ok b =>
          rw [hb] at hpre
          dsimp only at hpre
          cases hr : fileSourcesPairs env pre' with
          | error e' =>
              rw [hr] at hpre
              simp at hpre
          | ok r =>
              show fileSourcesPairs env (p :: (pre' ++ s :: post)) = _
              unfold fileSourcesPairs
              rw [hb]
              dsimp only
              rw [ih r hr]

/-- C9.  First-failure abort: when the sources before `s` resolve and `s`
fails, the whole run fails with `s`'s wrapped error — the same error
whatever the sources after `s` (and, for an env failure, whatever the
fileSources) would have produced, so no later source is processed and no
partial map is returned; the message contains the originating source
string. -/
theorem claim9_first_failure :
    (∀ env input pre s post e ps0,
       input.EnvSources = pre ++ s :: post →
       envSourcesPairs env pre = .ok ps0 →
       envSourceBatch env s = .error e →
       parseInput env input =
         .error (wrapErr (ascii ("env source ") ++ s) e) ∧
       isSubSeg s (wrapErr (ascii ("env source ") ++ s) e) = true) ∧
    (∀ env input pre s post e psE ps0,
       input.FileSources = pre ++ s :: post →
       envSourcesPairs env input.EnvSources = .ok psE →
       fileSourcesPairs env pre = .ok ps0 →
       fileSourceBatch env s = .error e →
       parseInput env input =
         .error (wrapErr (ascii ("file source ") ++ s) e) ∧
       isSubSeg s (wrapErr (ascii ("file source ") ++ s) e) = true) := by
  constructor
  · intro env input pre s post e ps0 hsrc hpre hs
    constructor
    · rw [parseInput_pairs]
      unfold inputPairs
      rw [hsrc, envSourcesPairs_error env pre s post e ps0 hpre hs]
      rfl
    · have h2 : wrapErr (ascii ("env source ") ++ s) e =
          (ascii ("env source ")) ++ s ++ (ascii (": ") ++ e) := by
        simp [wrapErr, List.append_assoc]
      rw [h2]
      exact isSubSeg_middle s (ascii ("env source ")) (ascii (": ") ++ e)
  · intro env input pre s post e psE ps0 hsrc henv hpre hs
    constructor
    · rw [parseInput_pairs]
      unfold inputPairs
      rw [henv]
      dsimp only
      rw [hsrc, fileSourcesPairs_error env pre s post e ps0 hpre hs]
      rfl
    · have h2 : wrapErr (ascii ("file source ") ++ s) e =
          (ascii ("file source ")) ++ s ++ (ascii (": ") ++ e) := by
        simp [wrapErr, List.append_assoc]
      rw [h2]
      exact isSubSeg_middle s (ascii ("file source ")) (ascii (": ") ++ e)

/-- Environment for the C9 witness: the second env source is unreadable. -/
def wEnv9 : Env :=
  { readFile := fun p =>
      if p = ascii ("good.env") then .ok (ascii ("A=1"))
      else .error (ascii ("read failed")),
    unmarshalSSG := fun _ => .error (ascii ("unused")),
    decrypt := fun content _ => .ok content,
    parseYAMLkv := fun _ => .error (ascii ("unused")),
    parseJSONkv := fun _ => .error (ascii ("unused")) }

/-- Descriptor for the C9 witness: a failing env source followed by further
declared sources that are never reached. -/
def wIn9 : SopsSecretGenerator :=
  { APIVersion := apiVersionConst, Kind := kindConst, Name := ascii ("n"),
    Namespace := [], Labels := emptyMap, Annotations := emptyMap,
    EnvSources := [ascii ("good.env"), ascii ("bad.env"), ascii ("later.env")],
    FileSources := [ascii ("x=y")],
    Behavior := [], DisableNameSuffixHash := false, Type_ := [] }

/-- Witness for C9: the run aborts at `bad.env` with its wrapped, source-
naming error. -/
theorem claim9_witness :
    parseInput wEnv9 wIn9 =
      .error (wrapErr (ascii ("env source ") ++ ascii ("bad.env"))
        (ascii ("read failed"))) ∧
    isSubSeg (ascii ("bad.env"))
      (wrapErr (ascii ("env source ") ++ ascii ("bad.env"))
        (ascii ("read failed"))) = true :=
  claim9_first_failure.1 wEnv9 wIn9 [ascii ("good.env")] (ascii ("bad.env"))
    [ascii ("later.env")] (ascii ("read failed"))
    [(ascii ("A"), b64Encode (ascii ("1")))] (by rfl) (by rfl) (by rfl)
